import Mathlib

/-!
# Verification of the ton-indexer trace-classification core

Shallow embedding of `src/indexer/event_classifier.py` and
`src/indexer/indexer/events/interface_repository.py`.

Modelling conventions:
* Python dynamic values are modelled by the inductive `Value`; Python `dict`s
  (ordered, unique keys) become association lists, with uniqueness of keys
  carried as `Nodup` hypotheses where it matters.
* `msgpack.packb` / `msgpack.unpackb` (with `use_bin_type=True` / `raw=False`)
  form a faithful round trip on the dictionaries this code stores, so the
  serialized blob is modelled as the dictionary itself.
* Fallible Python code (`KeyError`, `IndexError`, raised exceptions of the
  classification delegate) is modelled with `Except String`.
* Python `float(x)` applied to a numeric DB column is modelled by the
  constructor change `Value.int n ↦ Value.float n`: the claims under test are
  about which representation is stored, never about float arithmetic.
-/

/-- A dynamic (Python) value. `float n` stands for the Python float obtained
by coercing the numeric value `n`; the claims only inspect which constructor
a stored value carries, never float arithmetic. -/
inductive Value where
  | int : Int → Value
  | float : Int → Value
  | str : String → Value
  | bool : Bool → Value
  | bytes : String → Value
  | none : Value
deriving DecidableEq, Repr

/-- A Python string-keyed field map (one interface record's fields). -/
abbrev FieldMap := List (String × Value)

/-- Per-address interface dictionary: interface-kind name → field map. -/
abbrev InterfaceDict := List (String × FieldMap)

/-- `m[k]` on a Python dict: `KeyError` when the key is absent. -/
def FieldMap.get (m : FieldMap) (k : String) : Except String Value :=
  match m.lookup k with
  | some v => .ok v
  | Option.none => .error ("KeyError: " ++ k)

/-- `xs[i]` on a Python tuple/list: `IndexError` when out of range. -/
def pyIndex (xs : List Value) (i : Nat) : Except String Value :=
  match xs.get? i with
  | some v => .ok v
  | Option.none => .error "IndexError"

/-- The `JettonWallet` record as constructed by the repositories
(`JettonWallet(balance=..., address=..., owner=..., jetton=...)`). -/
structure JettonWallet where
  balance : Value
  address : Value
  owner : Value
  jetton : Value
deriving DecidableEq, Repr

/-- The `NFTItem` record as constructed by the repositories. -/
structure NFTItem where
  address : Value
  init : Value
  index : Value
  collection_address : Value
  owner_address : Value
  content : Value
deriving DecidableEq, Repr

/-- The `NftSale` record as constructed by the repositories. -/
structure NftSale where
  address : Value
  is_complete : Value
  marketplace_address : Value
  nft_address : Value
  nft_owner_address : Value
  full_price : Value
deriving DecidableEq, Repr

/-- Building `JettonWallet(balance=d["balance"], address=d["address"],
owner=d["owner"], jetton=d["jetton"])` from a field map. -/
def buildJettonWallet (d : FieldMap) : Except String JettonWallet := do
  let b ← d.get "balance"
  let a ← d.get "address"
  let o ← d.get "owner"
  let j ← d.get "jetton"
  return { balance := b, address := a, owner := o, jetton := j }

/-- Building `NFTItem(...)` from a field map, as in the repositories. -/
def buildNFTItem (d : FieldMap) : Except String NFTItem := do
  let a ← d.get "address"
  let i ← d.get "init"
  let ix ← d.get "index"
  let c ← d.get "collection_address"
  let o ← d.get "owner_address"
  let ct ← d.get "content"
  return { address := a, init := i, index := ix, collection_address := c,
           owner_address := o, content := ct }

/-- Building `NftSale(...)` from a field map, as in the repositories. -/
def buildNftSale (d : FieldMap) : Except String NftSale := do
  let a ← d.get "address"
  let ic ← d.get "is_complete"
  let m ← d.get "marketplace_address"
  let n ← d.get "nft_address"
  let no ← d.get "nft_owner_address"
  let fp ← d.get "full_price"
  return { address := a, is_complete := ic, marketplace_address := m,
           nft_address := n, nft_owner_address := no, full_price := fp }

/-! ## In-memory-with-fallback variant (`InMemoryInterfaceRepository`) -/

/-- An abstract `InterfaceRepository` used as the fallback
(`backoff_repository`) of the in-memory variant: just the capability set
{get_jetton_wallet, get_nft_item, get_nft_sale}. -/
structure FallbackRepo where
  jw : String → Except String (Option JettonWallet)
  ni : String → Except String (Option NFTItem)
  ns : String → Except String (Option NftSale)

/-- `InMemoryInterfaceRepository`: a pre-populated mapping
address → {interface-kind → field map} plus an optional fallback. -/
structure InMemoryInterfaceRepository where
  interface_map : List (String × InterfaceDict)
  backoff_repository : Option FallbackRepo

namespace InMemoryInterfaceRepository

/-- `InMemoryInterfaceRepository.get_jetton_wallet`: if the address is in the
map, scan its kinds for `"JettonWallet"` and build the record; otherwise
(`elif self.backoff_repository is not None`) delegate; otherwise `None`. -/
def get_jetton_wallet (r : InMemoryInterfaceRepository) (address : String) :
    Except String (Option JettonWallet) :=
  match r.interface_map.lookup address with
  | some interfaces =>
    match interfaces.lookup "JettonWallet" with
    | some d => do return some (← buildJettonWallet d)
    | Option.none => .ok Option.none
  | Option.none =>
    match r.backoff_repository with
    | some b => b.jw address
    | Option.none => .ok Option.none

/-- `InMemoryInterfaceRepository.get_nft_item`: same shape as
`get_jetton_wallet`, scanning for `"NFTItem"`. -/
def get_nft_item (r : InMemoryInterfaceRepository) (address : String) :
    Except String (Option NFTItem) :=
  match r.interface_map.lookup address with
  | some interfaces =>
    match interfaces.lookup "NFTItem" with
    | some d => do return some (← buildNFTItem d)
    | Option.none => .ok Option.none
  | Option.none =>
    match r.backoff_repository with
    | some b => b.ni address
    | Option.none => .ok Option.none

/-- `InMemoryInterfaceRepository.get_nft_sale`: scans the map for `"NftSale"`;
NOTE: the source has no fallback branch in this method — a miss returns
`None` directly. -/
def get_nft_sale (r : InMemoryInterfaceRepository) (address : String) :
    Except String (Option NftSale) :=
  match r.interface_map.lookup address with
  | some interfaces =>
    match interfaces.lookup "NftSale" with
    | some d => do return some (← buildNftSale d)
    | Option.none => .ok Option.none
  | Option.none => .ok Option.none

end InMemoryInterfaceRepository

/-! ## Direct-store variant (`SqlAlchemyInterfaceRepository`) -/

/-- A `jetton_wallets` row of the relational store (typed columns; `balance`
is a numeric column, modelled at integral values). -/
structure JettonWalletRow where
  address : String
  balance : Int
  owner : String
  jetton : String
deriving DecidableEq, Repr

/-- An `nft_items` row of the relational store. -/
structure NFTItemRow where
  address : String
  init : Bool
  index : Int
  collection_address : String
  owner_address : String
  content : Value
deriving DecidableEq, Repr

/-- An `nft_sales` row of the relational store (`full_price` numeric). -/
structure NftSaleRow where
  address : String
  is_complete : Bool
  marketplace_address : String
  nft_address : String
  nft_owner_address : String
  full_price : Int
deriving DecidableEq, Repr

/-- The relational store visible to this core: the three interface tables,
each keyed by the `address` primary key. -/
structure RelationalStore where
  jetton_wallets : List JettonWalletRow
  nft_items : List NFTItemRow
  nft_sales : List NftSaleRow

namespace SqlAlchemyInterfaceRepository

/-- `SqlAlchemyInterfaceRepository.get_jetton_wallet`:
`session.get(JettonWallet, address)` — point query by primary key. -/
def get_jetton_wallet (db : RelationalStore) (address : String) :
    Option JettonWalletRow :=
  db.jetton_wallets.find? (fun w => w.address == address)

/-- `SqlAlchemyInterfaceRepository.get_nft_item`:
`session.get(NFTItem, address)` — point query by primary key. -/
def get_nft_item (db : RelationalStore) (address : String) :
    Option NFTItemRow :=
  db.nft_items.find? (fun w => w.address == address)

/-- `SqlAlchemyInterfaceRepository.get_nft_sale`: the source returns `None`
unconditionally, issuing no query. -/
def get_nft_sale (_db : RelationalStore) (_address : String) :
    Option NftSaleRow :=
  Option.none

end SqlAlchemyInterfaceRepository

/-! ## Write-through cache variant (`RedisInterfaceRepository`)

The Redis keyed store is modelled as an association list key → blob, where a
blob is the msgpack-serialized `InterfaceDict` (msgpack round-trips these
dictionaries faithfully, so the blob is modelled as the dictionary itself).
The 60-second expiry only removes keys over time and is not part of any
claim under test. -/

abbrev RedisStore := String → Option InterfaceDict

/-- The empty keyed store: every `GET` misses. -/
def RedisStore.empty : RedisStore := fun _ => Option.none

/-- The cache key scheme: `RedisInterfaceRepository.prefix + address` with
the literal key namespace `"I_"`. -/
def redisKey (address : String) : String := "I_" ++ address

/-- `SET key blob` on the keyed store. -/
def RedisStore.setKey (s : RedisStore) (key : String) (v : InterfaceDict) :
    RedisStore :=
  fun k => if k = key then some v else s k

namespace RedisInterfaceRepository

/-- `RedisInterfaceRepository.put_interfaces`: for every address whose
interface dict is non-empty (`len(data.keys()) > 0`), `SET` the serialized
dict under `"I_" + address`; empty dicts are skipped. The `asyncio.gather`
writes hit pairwise-distinct keys (dict keys are unique), so they are
modelled as a left fold. -/
def put_interfaces (s : RedisStore) (interfaces : List (String × InterfaceDict)) :
    RedisStore :=
  interfaces.foldl
    (fun acc p => if p.2.length > 0 then acc.setKey (redisKey p.1) p.2 else acc) s

/-- `RedisInterfaceRepository.get_jetton_wallet`: `GET "I_" + address`;
absent key → `None`; otherwise deserialize and take the first entry whose
kind-name is `"JettonWallet"`, building the record from its field map. -/
def get_jetton_wallet (s : RedisStore) (address : String) :
    Except String (Option JettonWallet) :=
  match s (redisKey address) with
  | Option.none => .ok Option.none
  | some interfaces =>
    match interfaces.lookup "JettonWallet" with
    | some d => do return some (← buildJettonWallet d)
    | Option.none => .ok Option.none

/-- `RedisInterfaceRepository.get_nft_item`: as `get_jetton_wallet` with
kind-name `"NFTItem"`. -/
def get_nft_item (s : RedisStore) (address : String) :
    Except String (Option NFTItem) :=
  match s (redisKey address) with
  | Option.none => .ok Option.none
  | some interfaces =>
    match interfaces.lookup "NFTItem" with
    | some d => do return some (← buildNFTItem d)
    | Option.none => .ok Option.none

/-- `RedisInterfaceRepository.get_nft_sale`: as `get_jetton_wallet` with
kind-name `"NftSale"`. -/
def get_nft_sale (s : RedisStore) (address : String) :
    Except String (Option NftSale) :=
  match s (redisKey address) with
  | Option.none => .ok Option.none
  | some interfaces =>
    match interfaces.lookup "NftSale" with
    | some d => do return some (← buildNftSale d)
    | Option.none => .ok Option.none

end RedisInterfaceRepository

/-! ## Self-contained speculative variant
(`EmulatedTransactionsInterfaceRepository`) -/

/-- The decoded speculative blob: `msgpack.unpackb` yields a structure whose
first element (`data[0]`) is a list of `(interface-type-code, positional
field tuple)` pairs; the remaining elements are irrelevant to this
repository and kept opaque. -/
structure EmulatedBlob where
  interfaces : List (Int × List Value)
  rest : List Value
deriving DecidableEq, Repr

/-- `EmulatedTransactionsInterfaceRepository`: constructed directly from a
pre-supplied key → blob mapping (the Redis hash of the speculative trace). -/
structure EmulatedTransactionsInterfaceRepository where
  data : List (String × EmulatedBlob)

namespace EmulatedTransactionsInterfaceRepository

/-- `EmulatedTransactionsInterfaceRepository.get_jetton_wallet`: the first
pair with code `0` yields `JettonWallet(balance=t[0], address=t[1],
owner=t[2], jetton=t[3])`; no such pair → `None`; absent address → `None`. -/
def get_jetton_wallet (r : EmulatedTransactionsInterfaceRepository)
    (address : String) : Except String (Option JettonWallet) :=
  match r.data.lookup address with
  | Option.none => .ok Option.none
  | some blob =>
    match blob.interfaces.find? (fun p => p.1 == 0) with
    | Option.none => .ok Option.none
    | some p => do
      let b ← pyIndex p.2 0
      let a ← pyIndex p.2 1
      let o ← pyIndex p.2 2
      let j ← pyIndex p.2 3
      return some { balance := b, address := a, owner := o, jetton := j }

/-- `EmulatedTransactionsInterfaceRepository.get_nft_item`: the first pair
with code `2` yields `NFTItem(address=t[0], init=t[1], index=t[2],
collection_address=t[3], owner_address=t[4], content=t[5])`. -/
def get_nft_item (r : EmulatedTransactionsInterfaceRepository)
    (address : String) : Except String (Option NFTItem) :=
  match r.data.lookup address with
  | Option.none => .ok Option.none
  | some blob =>
    match blob.interfaces.find? (fun p => p.1 == 2) with
    | Option.none => .ok Option.none
    | some p => do
      let a ← pyIndex p.2 0
      let i ← pyIndex p.2 1
      let ix ← pyIndex p.2 2
      let c ← pyIndex p.2 3
      let o ← pyIndex p.2 4
      let ct ← pyIndex p.2 5
      return some { address := a, init := i, index := ix,
                    collection_address := c, owner_address := o, content := ct }

/-- `EmulatedTransactionsInterfaceRepository.get_nft_sale`: the source
returns `None` unconditionally — `NftSale` has no representation in this
encoding. -/
def get_nft_sale (_r : EmulatedTransactionsInterfaceRepository)
    (_address : String) : Except String (Option NftSale) :=
  .ok Option.none

end EmulatedTransactionsInterfaceRepository

/-! ## Traces, blocks and the trace processor (`event_classifier.py`) -/

/-- A message as seen by the skip rule: only its optional `destination`
address is inspected by this core. -/
structure TraceMessage where
  destination : Option String
deriving DecidableEq, Repr

/-- An event node of a block; the processor reads `event_nodes[0].message`. -/
structure EventNode where
  message : TraceMessage
deriving DecidableEq, Repr

/-- The block tree returned by the external classification engine
(`process_event_async`). Only the block type tag, the event nodes and the
children are inspected by this core. -/
inductive Block where
  | node : String → List EventNode → List Block → Block
deriving Repr

/-- The block's type tag (`block.btype`). -/
def Block.btype : Block → String
  | .node t _ _ => t

/-- The block's event nodes (`block.event_nodes`). -/
def Block.event_nodes : Block → List EventNode
  | .node _ ns _ => ns

/-- The block's children in the tree. -/
def Block.children : Block → List Block
  | .node _ _ cs => cs

mutual

/-- Size of a block tree, the termination measure for breadth-first
enumeration. -/
def Block.size : Block → Nat
  | .node _ _ cs => 1 + Block.sizeList cs

/-- Sum of sizes of a list of block trees. -/
def Block.sizeList : List Block → Nat
  | [] => 0
  | b :: bs => Block.size b + Block.sizeList bs

end

/-- Breadth-first enumeration of a queue of blocks: pop the front, then push
its children at the back. Modelled from the spec: `bfs_iter` (missing from
`src/`) enumerates the resulting tree breadth-first. The fuel argument is a
structural-recursion bound; a queue holding `n` tree nodes in total is
drained in exactly `n` pops (each pop removes one node and enqueues its
children), so with fuel `Block.size b` the enumeration is exhaustive. -/
def Block.bfsAux : Nat → List Block → List Block
  | 0, _ => []
  | _, [] => []
  | fuel + 1, b :: rest => b :: Block.bfsAux fuel (rest ++ b.children)

/-- `result.bfs_iter()`: breadth-first enumeration starting at the root. -/
def Block.bfs_iter (b : Block) : List Block := Block.bfsAux (Block.size b) [b]

/-- A transaction of a trace: only the sender `account` and the kind tag
`descr` are inspected by this core. -/
structure Transaction where
  account : String
  descr : String
deriving DecidableEq, Repr

/-- A trace-level edge; its contents are never inspected by this core (only
`len(trace.edges)` is), so it is modelled opaquely. -/
structure TraceEdge where
deriving DecidableEq, Repr

/-- A fully-hydrated trace as handed to the trace processor. -/
structure Trace where
  trace_id : String
  transactions : List Transaction
  edges : List TraceEdge
deriving DecidableEq, Repr

/-- Modelled from the spec: an `Action` produced by `block_to_action`
(missing from `src/`) — a semantic unit always associated with the owning
`trace_id`, derived from one block. -/
structure TraceAction where
  trace_id : String
  block : Block

/-- Modelled from the spec: `block_to_action(block, trace_id)` converts one
remaining block to one Action tagged with the owning trace ID. -/
def block_to_action (block : Block) (trace_id : String) : TraceAction :=
  { trace_id := trace_id, block := block }

/-- The external classification engine (`process_event_async`, out of scope
per the spec): a delegate from a trace to a block tree that may raise. The
ambient interface-repository context only influences the delegate, so it is
absorbed into the delegate parameter. -/
abbrev ClassifyDelegate := Trace → Except String Block

/-- The `tick_tock` short-circuit test of `process_trace`:
`len(trace.transactions) == 1 and trace.transactions[0].descr == 'tick_tock'
and len(trace.edges) == 0`. -/
def isTickTockShortcut (t : Trace) : Bool :=
  t.transactions.length == 1 &&
  (match t.transactions with
   | tx :: _ => tx.descr == "tick_tock"
   | [] => false) &&
  t.edges.length == 0

/-- The action-collection loop of `process_trace` over the breadth-first
block list: skip the `root` block; for a `call_contract` block read
`event_nodes[0]` (IndexError when empty) and skip it when the message has no
destination; convert every remaining block via `block_to_action`. -/
def collectActions (tid : String) : List Block → Except String (List TraceAction)
  | [] => .ok []
  | b :: rest =>
    if b.btype == "root" then collectActions tid rest
    else if b.btype == "call_contract" then
      match b.event_nodes with
      | [] => .error "IndexError"
      | n :: _ =>
        if n.message.destination.isNone then collectActions tid rest
        else do return block_to_action b tid :: (← collectActions tid rest)
    else do return block_to_action b tid :: (← collectActions tid rest)

/-- `process_trace(trace)`: tick_tock short-circuit, else delegate to the
engine and collect actions from the breadth-first enumeration; any exception
of the delegation path is caught and yields `(trace_id, False, [])`. -/
def process_trace (delegate : ClassifyDelegate) (trace : Trace) :
    String × Bool × List TraceAction :=
  if isTickTockShortcut trace then (trace.trace_id, true, [])
  else
    match (do
      let result ← delegate trace
      collectActions trace.trace_id result.bfs_iter :
        Except String (List TraceAction)) with
    | .ok actions => (trace.trace_id, true, actions)
    | .error _ => (trace.trace_id, false, [])

/-- The survive-the-skip predicate of the action loop, for stating the
enumeration property: a block is kept iff it is not the synthetic `root`
block and not a `call_contract` block whose triggering message
(`event_nodes[0].message`) has no destination. -/
def keepBlock (b : Block) : Bool :=
  !(b.btype == "root") &&
  !(b.btype == "call_contract" &&
    (match b.event_nodes with
     | n :: _ => n.message.destination.isNone
     | [] => true))

/-- The durable state touched by a worker's batch commit: the per-trace
`classification_state` column and the `actions` table. -/
structure TraceDB where
  states : List (String × String)
  actions : List TraceAction

/-- `UPDATE traces SET classification_state = v WHERE trace_id IN ids`. -/
def updState (ids : List String) (v : String)
    (states : List (String × String)) : List (String × String) :=
  states.map (fun p => if p.1 ∈ ids then (p.1, v) else p)

/-- `process_trace_batch_async(ids)` after loading: classify all loaded
traces concurrently (`asyncio.gather` preserves the order of results),
`add_all` the actions of the succeeded traces, bulk-update succeeded trace
IDs to `ok` then failed trace IDs to `failed`, and commit — all in one
transaction. The interface warm-up (gather + `put_interfaces` + context set)
only feeds the ambient repository consumed by the abstract delegate. -/
def process_trace_batch_async (delegate : ClassifyDelegate)
    (events : List Trace) (db : TraceDB) : TraceDB :=
  let results := events.map (process_trace delegate)
  let okResults := results.filter (fun r => r.2.1)
  let ok_traces := okResults.map (fun r => r.1)
  let failed_traces := (results.filter (fun r => !r.2.1)).map (fun r => r.1)
  { states := updState failed_traces "failed" (updState ok_traces "ok" db.states),
    actions := db.actions ++ okResults.flatMap (fun r => r.2.2) }

/-! ## Batch orchestrator (`start_processing_events_from_db`) -/

/-- What one polling cycle does after its commit: sleep 2s on an empty
fetch, dispatch a list of batches to the pool, or sleep 2s because the
`has_traces_to_process` flag stayed false. -/
inductive CycleOutcome where
  | emptySleep
  | dispatched (batches : List (List String))
  | idleSleep
deriving DecidableEq, Repr

/-- `split_into_batches(data, batch_size)`: `for i in range(0, len(data),
batch_size): yield data[i:i + batch_size]` — the slice starting at every
multiple of `batch_size` below `len(data)`. Defined for `batch_size ≥ 1`
(Python `range` raises on step 0; the CLI default is 1000). -/
def split_into_batches (data : List String) (bs : Nat) : List (List String) :=
  (List.range ((data.length + bs - 1) / bs)).map
    (fun i => (data.drop (i * bs)).take bs)

/-- One iteration of the orchestrator's polling loop, after the fetch:
empty page → sleep; otherwise mark every pathological-size trace
(`nodes > 500 or nodes == 0`) as `ok`, commit, and — because the loop body
sets `has_traces_to_process = True` in both branches — always take the
dispatch arm, handing `split_into_batches(ids, batch_size)` to the pool.
Returns the committed states together with the outcome; the commit happens
before the dispatch. -/
def orchestratorCycle (batch : List (String × Nat)) (batch_size : Nat)
    (states : List (String × String)) :
    List (String × String) × CycleOutcome :=
  if batch.length = 0 then (states, .emptySleep)
  else
    let fastIds := (batch.filter
      (fun p => decide (500 < p.2) || decide (p.2 = 0))).map (fun p => p.1)
    let ids := (batch.filter
      (fun p => !(decide (500 < p.2) || decide (p.2 = 0)))).map (fun p => p.1)
    let has_traces_to_process := batch.foldl (fun _ _ => true) false
    let statesAfterCommit := updState fastIds "ok" states
    if has_traces_to_process then
      (statesAfterCommit, .dispatched (split_into_batches ids batch_size))
    else
      (statesAfterCommit, .idleSleep)

/-! ## `gather_interfaces` -/

/-- The field map `gather_interfaces` builds for a jetton-wallet row:
`balance` is coerced with `float(...)`. -/
def jwFields (w : JettonWalletRow) : FieldMap :=
  [("balance", Value.float w.balance), ("address", Value.str w.address),
   ("owner", Value.str w.owner), ("jetton", Value.str w.jetton)]

/-- The field map `gather_interfaces` builds for an NFT-item row:
`index` is coerced with `float(...)`. -/
def niFields (w : NFTItemRow) : FieldMap :=
  [("address", Value.str w.address), ("init", Value.bool w.init),
   ("index", Value.float w.index),
   ("collection_address", Value.str w.collection_address),
   ("owner_address", Value.str w.owner_address),
   ("content", w.content)]

/-- The field map `gather_interfaces` builds for an NFT-sale row:
`full_price` is coerced with `float(...)`. -/
def nsFields (w : NftSaleRow) : FieldMap :=
  [("address", Value.str w.address), ("is_complete", Value.bool w.is_complete),
   ("marketplace_address", Value.str w.marketplace_address),
   ("nft_address", Value.str w.nft_address),
   ("nft_owner_address", Value.str w.nft_owner_address),
   ("full_price", Value.float w.full_price)]

/-- `d[k] = v` on a Python dict: replace the binding if the key is present,
else append it. -/
def dictSet (d : InterfaceDict) (k : String) (v : FieldMap) : InterfaceDict :=
  match d.lookup k with
  | some _ => d.map (fun p => if p.1 = k then (k, v) else p)
  | Option.none => d ++ [(k, v)]

/-- `result[a][k] = v` on the `defaultdict(dict)` accumulator: update the
dict bound to `a`, materializing an empty dict when `a` is absent. -/
def dictInsert (acc : List (String × InterfaceDict)) (a k : String)
    (v : FieldMap) : List (String × InterfaceDict) :=
  match acc.lookup a with
  | some _ => acc.map (fun p => if p.1 = a then (a, dictSet p.2 k v) else p)
  | Option.none => acc ++ [(a, [(k, v)])]

/-- One of the three assignment loops of `gather_interfaces`: for every row,
`result[row.address][kind] = fields(row)`. -/
def foldKind (k : String) (rows : List (String × FieldMap))
    (acc : List (String × InterfaceDict)) : List (String × InterfaceDict) :=
  rows.foldl (fun acc r => dictInsert acc r.1 k r.2) acc

/-- `_gather_data_from_db`: the three `SELECT ... WHERE address IN accounts`
queries. -/
def _gather_data_from_db (accounts : List String) (db : RelationalStore) :
    List JettonWalletRow × List NFTItemRow × List NftSaleRow :=
  (db.jetton_wallets.filter (fun w => accounts.contains w.address),
   db.nft_items.filter (fun w => accounts.contains w.address),
   db.nft_sales.filter (fun w => accounts.contains w.address))

/-- `gather_interfaces(accounts, session)`: seed every requested account
with an empty dict, then run the three assignment loops (jetton wallets,
NFT items, NFT sales, in source order). -/
def gather_interfaces (accounts : List String) (db : RelationalStore) :
    List (String × InterfaceDict) :=
  let fetched := _gather_data_from_db accounts db
  let base : List (String × InterfaceDict) :=
    accounts.map (fun a => (a, []))
  foldKind "NftSale" (fetched.2.2.map (fun w => (w.address, nsFields w)))
    (foldKind "NFTItem" (fetched.2.1.map (fun w => (w.address, niFields w)))
      (foldKind "JettonWallet"
        (fetched.1.map (fun w => (w.address, jwFields w))) base))

/-- `result[a][k]` read out of a gathered interface mapping: the field map
stored for kind `k` under account `a`, when both are present. -/
def getKind (m : List (String × InterfaceDict)) (a k : String) :
    Option FieldMap :=
  (m.lookup a).bind (fun d => d.lookup k)

/-! ## Helper lemmas -/

theorem redisKey_inj {a b : String} (h : redisKey a = redisKey b) : a = b := by
  have h2 : (redisKey a).data = (redisKey b).data := by rw [h]
  simp [redisKey, String.data_append] at h2
  exact String.ext h2

theorem lookup_append {β : Type} (l₁ l₂ : List (String × β)) (x : String) :
    (l₁ ++ l₂).lookup x =
      match l₁.lookup x with
      | some v => some v
      | Option.none => l₂.lookup x := by
  induction l₁ with
  | nil => simp [List.lookup]
  | cons p t ih =>
    by_cases hx : x = p.1
    · subst hx
      simp [List.lookup]
    · have hbeq : (x == p.1) = false := beq_false_of_ne hx
      simp [List.lookup, hbeq, ih]

theorem lookup_updState (ids : List String) (v : String)
    (states : List (String × String)) (x : String) :
    (updState ids v states).lookup x =
      if x ∈ ids then (states.lookup x).map (fun _ => v)
      else states.lookup x := by
  induction states with
  | nil => simp [updState]
  | cons p t ih =>
    obtain ⟨k, w⟩ := p
    simp only [updState, List.map_cons] at ih ⊢
    by_cases hk : k ∈ ids
    · rw [if_pos hk]
      by_cases hx : x = k
      · subst hx
        simp [List.lookup, ih, hk]
      · have hbeq : (x == k) = false := beq_false_of_ne hx
        simp [List.lookup, hbeq, ih]
    · rw [if_neg hk]
      by_cases hx : x = k
      · subst hx
        simp [List.lookup, ih, hk]
      · have hbeq : (x == k) = false := beq_false_of_ne hx
        simp [List.lookup, hbeq, ih]

theorem setKey_same (s : RedisStore) (k : String) (v : InterfaceDict) :
    s.setKey k v k = some v := by
  simp [RedisStore.setKey]

theorem setKey_other (s : RedisStore) (k k2 : String) (v : InterfaceDict)
    (h : k2 ≠ k) : s.setKey k v k2 = s k2 := by
  simp [RedisStore.setKey, h]

/-- `put_interfaces` never touches the key of an address absent from its
argument. -/
theorem put_interfaces_not_mem (ifs : List (String × InterfaceDict))
    (addr : String) (hnm : ∀ p ∈ ifs, p.1 ≠ addr) (s : RedisStore) :
    RedisInterfaceRepository.put_interfaces s ifs (redisKey addr) =
      s (redisKey addr) := by
  simp only [RedisInterfaceRepository.put_interfaces]
  induction ifs generalizing s with
  | nil => simp
  | cons p t ih =>
    have hp : p.1 ≠ addr := hnm p (List.mem_cons_self p t)
    have ht : ∀ q ∈ t, q.1 ≠ addr := fun q hq => hnm q (List.mem_cons_of_mem p hq)
    have hkey : redisKey addr ≠ redisKey p.1 := fun hc => hp (redisKey_inj hc).symm
    simp only [List.foldl_cons]
    by_cases hlen : p.2.length > 0
    · rw [if_pos hlen, ih ht, setKey_other s (redisKey p.1) (redisKey addr) p.2 hkey]
    · rw [if_neg hlen]
      exact ih ht s

/-- After `put_interfaces`, the key of an address bound to a non-empty dict
holds exactly that dict (keys of the argument are unique, as in a Python
dict). -/
theorem put_interfaces_mem (ifs : List (String × InterfaceDict))
    (hnd : (ifs.map Prod.fst).Nodup) (addr : String) (d : InterfaceDict)
    (hmem : (addr, d) ∈ ifs) (hne : d ≠ []) (s : RedisStore) :
    RedisInterfaceRepository.put_interfaces s ifs (redisKey addr) = some d := by
  simp only [RedisInterfaceRepository.put_interfaces]
  induction ifs generalizing s with
  | nil => simp at hmem
  | cons p t ih =>
    simp only [List.map_cons, List.nodup_cons] at hnd
    rcases List.mem_cons.mp hmem with hhead | htail
    · have hp1 : p.1 = addr := by rw [← hhead]
      have hp2 : p.2 = d := by rw [← hhead]
      have hnm : ∀ q ∈ t, q.1 ≠ addr := by
        intro q hq hc
        apply hnd.1
        rw [hp1, ← hc]
        exact List.mem_map_of_mem Prod.fst hq
      have hlen : p.2.length > 0 := hp2 ▸ List.length_pos.mpr hne
      simp only [List.foldl_cons, if_pos hlen]
      have hrest := put_interfaces_not_mem t addr hnm (s.setKey (redisKey p.1) p.2)
      simp only [RedisInterfaceRepository.put_interfaces] at hrest
      rw [hrest, hp1, hp2]
      exact setKey_same s (redisKey addr) d
    · simp only [List.foldl_cons]
      by_cases hlen : p.2.length > 0
      · rw [if_pos hlen]
        exact ih hnd.2 htail (s.setKey (redisKey p.1) p.2)
      · rw [if_neg hlen]
        exact ih hnd.2 htail s

/-- After `put_interfaces`, the key of an address bound to an empty dict is
untouched (the empty dict is skipped). -/
theorem put_interfaces_skip (ifs : List (String × InterfaceDict))
    (hnd : (ifs.map Prod.fst).Nodup) (addr : String)
    (hmem : (addr, ([] : InterfaceDict)) ∈ ifs) (s : RedisStore) :
    RedisInterfaceRepository.put_interfaces s ifs (redisKey addr) =
      s (redisKey addr) := by
  simp only [RedisInterfaceRepository.put_interfaces]
  induction ifs generalizing s with
  | nil => simp at hmem
  | cons p t ih =>
    simp only [List.map_cons, List.nodup_cons] at hnd
    rcases List.mem_cons.mp hmem with hhead | htail
    · have hp1 : p.1 = addr := by rw [← hhead]
      have hp2 : p.2 = ([] : InterfaceDict) := by rw [← hhead]
      have hnm : ∀ q ∈ t, q.1 ≠ addr := by
        intro q hq hc
        apply hnd.1
        rw [hp1, ← hc]
        exact List.mem_map_of_mem Prod.fst hq
      have hlen : ¬p.2.length > 0 := by simp [hp2]
      simp only [List.foldl_cons, if_neg hlen]
      have hrest := put_interfaces_not_mem t addr hnm s
      simp only [RedisInterfaceRepository.put_interfaces] at hrest
      exact hrest
    · have hp : p.1 ≠ addr := by
        intro hc
        apply hnd.1
        rw [hc]
        exact List.mem_map_of_mem Prod.fst htail
      have hkey : redisKey addr ≠ redisKey p.1 :=
        fun hc => hp (redisKey_inj hc).symm
      simp only [List.foldl_cons]
      by_cases hlen : p.2.length > 0
      · rw [if_pos hlen, ih hnd.2 htail (s.setKey (redisKey p.1) p.2),
          setKey_other s (redisKey p.1) (redisKey addr) p.2 hkey]
      · rw [if_neg hlen]
        exact ih hnd.2 htail s

theorem process_trace_fst (delegate : ClassifyDelegate) (t : Trace) :
    (process_trace delegate t).1 = t.trace_id := by
  unfold process_trace
  split
  · rfl
  · split <;> rfl

theorem foldl_const_true (l : List (String × Nat)) (b : Bool) (hne : l ≠ []) :
    l.foldl (fun _ _ => true) b = true := by
  induction l generalizing b with
  | nil => exact absurd rfl hne
  | cons p t ih =>
    rcases t with _ | ⟨q, r⟩
    · simp
    · simp only [List.foldl_cons]
      exact ih true (by simp)

theorem mem_of_mem_split_into_batches (data : List String) (bs : Nat)
    (b : List String) (hb : b ∈ split_into_batches data bs) (x : String)
    (hx : x ∈ b) : x ∈ data := by
  simp only [split_into_batches, List.mem_map] at hb
  obtain ⟨i, _, hbi⟩ := hb
  subst hbi
  exact List.drop_subset (i * bs) data (List.take_subset bs _ hx)

theorem lookup_map_keyUpd {β : Type} (d : List (String × β)) (k : String)
    (g : β → β) (x : String) :
    (d.map (fun p => if p.1 = k then (k, g p.2) else p)).lookup x =
      if x = k then (d.lookup k).map g else d.lookup x := by
  induction d with
  | nil => simp [List.lookup]
  | cons p t ih =>
    obtain ⟨pk, pv⟩ := p
    by_cases hpk : pk = k
    · subst hpk
      by_cases hx : x = pk
      · subst hx
        simp [List.lookup_cons, ih]
      · have hbeq : (x == pk) = false := beq_false_of_ne hx
        simp [List.lookup_cons, hbeq, hx, ih]
    · by_cases hx : x = pk
      · subst hx
        have hxk : x ≠ k := hpk
        simp [List.lookup_cons, hpk, hxk]
      · have hbeq : (x == pk) = false := beq_false_of_ne hx
        have hbeq2 : (k == pk) = false :=
          beq_false_of_ne (fun hc => hpk hc.symm)
        simp [List.lookup_cons, hpk, hbeq, hbeq2, ih]

theorem lookup_dictSet (d : InterfaceDict) (k : String) (v : FieldMap)
    (x : String) :
    (dictSet d k v).lookup x = if x = k then some v else d.lookup x := by
  unfold dictSet
  cases h : d.lookup k with
  | none =>
    rw [lookup_append]
    by_cases hx : x = k
    · subst hx
      simp [h, List.lookup]
    · have hbeq : (x == k) = false := beq_false_of_ne hx
      rw [if_neg hx]
      cases hdx : d.lookup x with
      | none => simp [List.lookup, hbeq]
      | some d1 => simp
  | some d0 =>
    have hm := lookup_map_keyUpd d k (fun _ => v) x
    simp only [hm, h]
    rfl

theorem lookup_dictInsert (acc : List (String × InterfaceDict))
    (a k : String) (v : FieldMap) (x : String) :
    (dictInsert acc a k v).lookup x =
      if x = a then
        some (match acc.lookup a with
              | some d => dictSet d k v
              | Option.none => [(k, v)])
      else acc.lookup x := by
  unfold dictInsert
  cases h : acc.lookup a with
  | none =>
    rw [lookup_append]
    by_cases hx : x = a
    · subst hx
      simp [h, List.lookup]
    · have hbeq : (x == a) = false := beq_false_of_ne hx
      rw [if_neg hx]
      cases hdx : acc.lookup x with
      | none => simp [List.lookup, hbeq]
      | some d1 => simp
  | some d0 =>
    have hm := lookup_map_keyUpd acc a (fun d => dictSet d k v) x
    simp only [hm, h]
    rfl

theorem getKind_dictInsert (acc : List (String × InterfaceDict))
    (a k : String) (v : FieldMap) (x k2 : String) :
    getKind (dictInsert acc a k v) x k2 =
      if x = a then (if k2 = k then some v else getKind acc a k2)
      else getKind acc x k2 := by
  unfold getKind
  rw [lookup_dictInsert]
  by_cases hx : x = a
  · subst hx
    rw [if_pos rfl, if_pos rfl]
    cases h : acc.lookup x with
    | none =>
      by_cases hk2 : k2 = k
      · subst hk2
        simp [List.lookup]
      · have hbeq : (k2 == k) = false := beq_false_of_ne hk2
        simp [List.lookup, hbeq, hk2]
    | some d =>
      simp [lookup_dictSet]
  · rw [if_neg hx, if_neg hx]

theorem lookup_foldKind_not_mem (k : String)
    (rows : List (String × FieldMap)) (acc : List (String × InterfaceDict))
    (x : String) (hx : ∀ r ∈ rows, r.1 ≠ x) :
    (foldKind k rows acc).lookup x = acc.lookup x := by
  induction rows generalizing acc with
  | nil => simp [foldKind]
  | cons r t ih =>
    have hr : r.1 ≠ x := hx r (List.mem_cons_self r t)
    have ht : ∀ q ∈ t, q.1 ≠ x := fun q hq => hx q (List.mem_cons_of_mem r hq)
    simp only [foldKind, List.foldl_cons]
    have := ih (dictInsert acc r.1 k r.2)
    simp only [foldKind] at this
    rw [this ht, lookup_dictInsert, if_neg (fun hc => hr hc.symm)]

theorem getKind_foldKind_ne (k k2 : String) (hne : k2 ≠ k)
    (rows : List (String × FieldMap)) (acc : List (String × InterfaceDict))
    (x : String) :
    getKind (foldKind k rows acc) x k2 = getKind acc x k2 := by
  induction rows generalizing acc with
  | nil => simp [foldKind]
  | cons r t ih =>
    simp only [foldKind, List.foldl_cons]
    have := ih (dictInsert acc r.1 k r.2)
    simp only [foldKind] at this
    rw [this, getKind_dictInsert, if_neg hne]
    by_cases hx : x = r.1
    · subst hx
      rw [if_pos rfl]
    · rw [if_neg hx]

theorem getKind_foldKind_self (k : String)
    (rows : List (String × FieldMap)) (acc : List (String × InterfaceDict))
    (x : String) (v : FieldMap)
    (hnd : (rows.map Prod.fst).Nodup) (hmem : (x, v) ∈ rows) :
    getKind (foldKind k rows acc) x k = some v := by
  induction rows generalizing acc with
  | nil => simp at hmem
  | cons r t ih =>
    simp only [List.map_cons, List.nodup_cons] at hnd
    rcases List.mem_cons.mp hmem with hhead | htail
    · have hr1 : r.1 = x := by rw [← hhead]
      have hr2 : r.2 = v := by rw [← hhead]
      have hnx : ∀ q ∈ t, q.1 ≠ x := by
        intro q hq hc
        apply hnd.1
        rw [hr1, ← hc]
        exact List.mem_map_of_mem Prod.fst hq
      simp only [foldKind, List.foldl_cons]
      have hpres := lookup_foldKind_not_mem k t (dictInsert acc r.1 k r.2) x hnx
      simp only [foldKind] at hpres
      unfold getKind
      rw [hpres, lookup_dictInsert, if_pos hr1.symm, hr1]
      cases h : acc.lookup x with
      | none => simp [h, hr2, List.lookup]
      | some d => simp [h, lookup_dictSet, hr2]
    · simp only [foldKind, List.foldl_cons]
      have := ih (dictInsert acc r.1 k r.2) hnd.2 htail
      simp only [foldKind] at this
      exact this

theorem lookup_foldKind_isSome (k : String)
    (rows : List (String × FieldMap)) (acc : List (String × InterfaceDict))
    (x : String) (h : ((acc.lookup x).isSome : Prop)) :
    (((foldKind k rows acc).lookup x).isSome : Prop) := by
  induction rows generalizing acc with
  | nil => simpa [foldKind] using h
  | cons r t ih =>
    simp only [foldKind, List.foldl_cons]
    have hstep : (((dictInsert acc r.1 k r.2).lookup x).isSome : Prop) := by
      rw [lookup_dictInsert]
      by_cases hx : x = r.1
      · rw [if_pos hx]
        rfl
      · rw [if_neg hx]
        exact h
    have := ih (dictInsert acc r.1 k r.2) hstep
    simpa [foldKind] using this

theorem collectActions_eq_filter (tid : String) (bs : List Block)
    (hwf : ∀ b ∈ bs, b.btype = "call_contract" → b.event_nodes ≠ []) :
    collectActions tid bs =
      .ok ((bs.filter keepBlock).map (fun b => block_to_action b tid)) := by
  induction bs with
  | nil => simp [collectActions]
  | cons b rest ih =>
    have hb := hwf b (List.mem_cons_self b rest)
    have hrest : ∀ c ∈ rest, c.btype = "call_contract" → c.event_nodes ≠ [] :=
      fun c hc => hwf c (List.mem_cons_of_mem b hc)
    by_cases hroot : b.btype = "root"
    · have h1 : (b.btype == "root") = true := by simp [hroot]
      simp [collectActions, keepBlock, h1, List.filter_cons, ih hrest]
    · have h1 : (b.btype == "root") = false := beq_false_of_ne hroot
      by_cases hcc : b.btype = "call_contract"
      · have h2 : (b.btype == "call_contract") = true := by simp [hcc]
        cases hev : b.event_nodes with
        | nil => exact absurd hev (hb hcc)
        | cons n ns =>
          by_cases hdst : n.message.destination.isNone
          · simp [collectActions, keepBlock, h1, h2, hev, hdst,
              List.filter_cons, ih hrest]
          · simp only [collectActions, h1, h2, hev, Bool.false_eq_true,
              if_false, if_true, hdst]
            rw [ih hrest]
            have hkeep : keepBlock b = true := by
              simp [keepBlock, h1, h2, hev, hdst]
            simp [List.filter_cons, hkeep, Except.bind]
      · have h2 : (b.btype == "call_contract") = false := beq_false_of_ne hcc
        have hkeep : keepBlock b = true := by simp [keepBlock, h1, h2]
        simp only [collectActions, h1, h2, Bool.false_eq_true, if_false]
        rw [ih hrest]
        simp [List.filter_cons, hkeep, Except.bind]

theorem find?_key_of_mem {α : Type} (key : α → String) (l : List α)
    (hnd : (l.map key).Nodup) (r : α) (hr : r ∈ l) (a : String)
    (ha : key r = a) :
    l.find? (fun x => key x == a) = some r := by
  induction l with
  | nil => simp at hr
  | cons x t ih =>
    simp only [List.map_cons, List.nodup_cons] at hnd
    rcases List.mem_cons.mp hr with hh | ht
    · subst hh
      have hbeq : (key r == a) = true := by simp [ha]
      simp [List.find?, hbeq]
    · have hne : key x ≠ a := by
        intro hc
        apply hnd.1
        rw [hc, ← ha]
        exact List.mem_map_of_mem key ht
      have hbeq : (key x == a) = false := beq_false_of_ne hne
      simp [List.find?, hbeq, ih hnd.2 ht]

theorem lookup_seed_mem (accounts : List String) (a : String)
    (ha : a ∈ accounts) :
    (accounts.map (fun a => (a, ([] : InterfaceDict)))).lookup a = some [] := by
  induction accounts with
  | nil => simp at ha
  | cons b t ih =>
    by_cases hab : a = b
    · subst hab
      simp [List.lookup_cons]
    · have hbeq : (a == b) = false := beq_false_of_ne hab
      have hat : a ∈ t := by
        rcases List.mem_cons.mp ha with hc | hc
        · exact absurd hc hab
        · exact hc
      simp [List.lookup_cons, hbeq, ih hat]

/-! ## Claim theorems -/

/-- Claim C8, counterexample: the direct-store variant does NOT issue a
point query for NFT sales — with a row stored under address `"A"` in
`nft_sales`, `get_nft_sale` still returns `None`, contradicting "returns
exactly the record stored under that address (None if and only if no such
record exists)". -/
theorem claim_C8_counterexample :
    ({ address := "A", is_complete := true, marketplace_address := "M",
       nft_address := "N", nft_owner_address := "O", full_price := 100 } :
        NftSaleRow) ∈
      (RelationalStore.mk [] []
        [{ address := "A", is_complete := true, marketplace_address := "M",
           nft_address := "N", nft_owner_address := "O",
           full_price := 100 }]).nft_sales ∧
    SqlAlchemyInterfaceRepository.get_nft_sale
      (RelationalStore.mk [] []
        [{ address := "A", is_complete := true, marketplace_address := "M",
           nft_address := "N", nft_owner_address := "O",
           full_price := 100 }]) "A" = Option.none :=
  ⟨List.mem_cons_self _ _, rfl⟩

/-- Claim C8, amended: `get_jetton_wallet` and `get_nft_item` issue point
queries against the relational store and return exactly the record stored
under the queried address (`None` exactly on absence, addresses being
primary keys); `get_nft_sale` returns `None` unconditionally without
querying. -/
theorem claim_C8 (db : RelationalStore) (a : String) :
    ((db.jetton_wallets.map JettonWalletRow.address).Nodup →
      ∀ r ∈ db.jetton_wallets, r.address = a →
        SqlAlchemyInterfaceRepository.get_jetton_wallet db a = some r) ∧
    ((∀ r ∈ db.jetton_wallets, r.address ≠ a) →
      SqlAlchemyInterfaceRepository.get_jetton_wallet db a = Option.none) ∧
    ((db.nft_items.map NFTItemRow.address).Nodup →
      ∀ r ∈ db.nft_items, r.address = a →
        SqlAlchemyInterfaceRepository.get_nft_item db a = some r) ∧
    ((∀ r ∈ db.nft_items, r.address ≠ a) →
      SqlAlchemyInterfaceRepository.get_nft_item db a = Option.none) ∧
    SqlAlchemyInterfaceRepository.get_nft_sale db a = Option.none := by
  refine ⟨?_, ?_, ?_, ?_, rfl⟩
  · intro hnd r hr ha
    exact find?_key_of_mem JettonWalletRow.address db.jetton_wallets hnd r hr a ha
  · intro hne
    apply List.find?_eq_none.mpr
    intro r hr
    simp [hne r hr]
  · intro hnd r hr ha
    exact find?_key_of_mem NFTItemRow.address db.nft_items hnd r hr a ha
  · intro hne
    apply List.find?_eq_none.mpr
    intro r hr
    simp [hne r hr]

theorem claim_C8_witness :
    SqlAlchemyInterfaceRepository.get_jetton_wallet
        (RelationalStore.mk
          [{ address := "A", balance := 7, owner := "O", jetton := "J" }]
          [] []) "A" =
      some { address := "A", balance := 7, owner := "O", jetton := "J" } ∧
    SqlAlchemyInterfaceRepository.get_nft_item
        (RelationalStore.mk
          [{ address := "A", balance := 7, owner := "O", jetton := "J" }]
          [] []) "A" = Option.none ∧
    SqlAlchemyInterfaceRepository.get_nft_sale
        (RelationalStore.mk
          [{ address := "A", balance := 7, owner := "O", jetton := "J" }]
          [] []) "A" = Option.none :=
  ⟨(claim_C8 (RelationalStore.mk
      [{ address := "A", balance := 7, owner := "O", jetton := "J" }] [] [])
      "A").1 (by simp) _ (List.mem_cons_self _ _) rfl,
   (claim_C8 (RelationalStore.mk
      [{ address := "A", balance := 7, owner := "O", jetton := "J" }] [] [])
      "A").2.2.2.1 (by intro r hr; simp at hr),
   (claim_C8 (RelationalStore.mk
      [{ address := "A", balance := 7, owner := "O", jetton := "J" }] [] [])
      "A").2.2.2.2⟩

/-- Claim C4, counterexample: `get_nft_sale` of the in-memory variant does
NOT delegate to the configured fallback on a miss — the fallback holds a
sale record for `"A"`, yet the lookup returns `None` instead of the
fallback's result. -/
theorem claim_C4_counterexample :
    InMemoryInterfaceRepository.get_nft_sale
      { interface_map := [],
        backoff_repository := some
          { jw := fun _ => .ok Option.none,
            ni := fun _ => .ok Option.none,
            ns := fun _ => .ok (some
              { address := Value.str "A", is_complete := Value.bool true,
                marketplace_address := Value.str "M",
                nft_address := Value.str "N",
                nft_owner_address := Value.str "O",
                full_price := Value.float 100 }) } } "A" = .ok Option.none ∧
    (Except.ok (some
      { address := Value.str "A", is_complete := Value.bool true,
        marketplace_address := Value.str "M",
        nft_address := Value.str "N",
        nft_owner_address := Value.str "O",
        full_price := Value.float 100 }) :
          Except String (Option NftSale)) ≠ .ok Option.none :=
  ⟨rfl, by simp⟩

/-- Claim C4, amended: on an address missing from the pre-populated mapping,
`get_jetton_wallet` and `get_nft_item` delegate to the configured fallback
repository and return its result, and return `None` when there is no
fallback; `get_nft_sale` never delegates and returns `None` on such a miss
regardless of the fallback. -/
theorem claim_C4 (r : InMemoryInterfaceRepository) (a : String)
    (hmiss : r.interface_map.lookup a = Option.none) :
    (∀ b, r.backoff_repository = some b →
      r.get_jetton_wallet a = b.jw a ∧
      r.get_nft_item a = b.ni a ∧
      r.get_nft_sale a = .ok Option.none) ∧
    (r.backoff_repository = Option.none →
      r.get_jetton_wallet a = .ok Option.none ∧
      r.get_nft_item a = .ok Option.none ∧
      r.get_nft_sale a = .ok Option.none) := by
  constructor
  · intro b hb
    refine ⟨?_, ?_, ?_⟩ <;>
      simp [InMemoryInterfaceRepository.get_jetton_wallet,
        InMemoryInterfaceRepository.get_nft_item,
        InMemoryInterfaceRepository.get_nft_sale, hmiss, hb]
  · intro hb
    refine ⟨?_, ?_, ?_⟩ <;>
      simp [InMemoryInterfaceRepository.get_jetton_wallet,
        InMemoryInterfaceRepository.get_nft_item,
        InMemoryInterfaceRepository.get_nft_sale, hmiss, hb]

theorem claim_C4_witness :
    (InMemoryInterfaceRepository.get_jetton_wallet
      { interface_map := [],
        backoff_repository := some
          { jw := fun _ => .ok (some
              { balance := Value.float 5, address := Value.str "A",
                owner := Value.str "O", jetton := Value.str "J" }),
            ni := fun _ => .ok Option.none,
            ns := fun _ => .ok Option.none } } "A" =
        .ok (some
          { balance := Value.float 5, address := Value.str "A",
            owner := Value.str "O", jetton := Value.str "J" })) ∧
    InMemoryInterfaceRepository.get_nft_sale
      { interface_map := [],
        backoff_repository := some
          { jw := fun _ => .ok (some
              { balance := Value.float 5, address := Value.str "A",
                owner := Value.str "O", jetton := Value.str "J" }),
            ni := fun _ => .ok Option.none,
            ns := fun _ => .ok Option.none } } "A" = .ok Option.none := by
  have h := claim_C4
    { interface_map := [],
      backoff_repository := some
        { jw := fun _ => .ok (some
            { balance := Value.float 5, address := Value.str "A",
              owner := Value.str "O", jetton := Value.str "J" }),
          ni := fun _ => .ok Option.none,
          ns := fun _ => .ok Option.none } } "A" rfl
  obtain ⟨h1, h2, h3⟩ := h.1 _ rfl
  exact ⟨h1, h3⟩

/-- Claim C5: the self-contained speculative variant decodes each blob to a
structure whose first element is a list of (integer-code, positional-tuple)
pairs; `get_jetton_wallet` builds a JettonWallet positionally (balance,
address, owner, jetton) from the first pair with code 0, `get_nft_item`
builds an NFTItem positionally from the first pair with code 2, each
returning `None` when no such code occurs, and `get_nft_sale` returns
`None` for every address. -/
theorem claim_C5 (r : EmulatedTransactionsInterfaceRepository) (a : String)
    (blob : EmulatedBlob) (hb : r.data.lookup a = some blob) :
    (∀ c t, blob.interfaces.find? (fun p => p.1 == 0) = some (c, t) →
      ∀ v0 v1 v2 v3, t[0]? = some v0 → t[1]? = some v1 →
        t[2]? = some v2 → t[3]? = some v3 →
        r.get_jetton_wallet a = .ok (some
          { balance := v0, address := v1, owner := v2, jetton := v3 })) ∧
    (blob.interfaces.find? (fun p => p.1 == 0) = Option.none →
      r.get_jetton_wallet a = .ok Option.none) ∧
    (∀ c t, blob.interfaces.find? (fun p => p.1 == 2) = some (c, t) →
      ∀ v0 v1 v2 v3 v4 v5, t[0]? = some v0 → t[1]? = some v1 →
        t[2]? = some v2 → t[3]? = some v3 → t[4]? = some v4 →
        t[5]? = some v5 →
        r.get_nft_item a = .ok (some
          { address := v0, init := v1, index := v2, collection_address := v3,
            owner_address := v4, content := v5 })) ∧
    (blob.interfaces.find? (fun p => p.1 == 2) = Option.none →
      r.get_nft_item a = .ok Option.none) ∧
    r.get_nft_sale a = .ok Option.none := by
  refine ⟨?_, ?_, ?_, ?_, rfl⟩
  · intro c t hfind v0 v1 v2 v3 h0 h1 h2 h3
    simp [EmulatedTransactionsInterfaceRepository.get_jetton_wallet, hb,
      hfind, pyIndex, h0, h1, h2, h3, bind, Except.bind, pure, Except.pure]
  · intro hfind
    simp [EmulatedTransactionsInterfaceRepository.get_jetton_wallet, hb, hfind]
  · intro c t hfind v0 v1 v2 v3 v4 v5 h0 h1 h2 h3 h4 h5
    simp [EmulatedTransactionsInterfaceRepository.get_nft_item, hb,
      hfind, pyIndex, h0, h1, h2, h3, h4, h5, bind, Except.bind, pure, Except.pure]
  · intro hfind
    simp [EmulatedTransactionsInterfaceRepository.get_nft_item, hb, hfind]

theorem claim_C5_witness :
    EmulatedTransactionsInterfaceRepository.get_jetton_wallet
      (EmulatedTransactionsInterfaceRepository.mk
        [("A", EmulatedBlob.mk
          [(0, [Value.int 100, Value.str "A", Value.str "OWNER",
                Value.str "JETTON"])] [])]) "A" =
      .ok (some { balance := Value.int 100, address := Value.str "A",
                  owner := Value.str "OWNER",
                  jetton := Value.str "JETTON" }) ∧
    EmulatedTransactionsInterfaceRepository.get_nft_item
      (EmulatedTransactionsInterfaceRepository.mk
        [("A", EmulatedBlob.mk
          [(0, [Value.int 100, Value.str "A", Value.str "OWNER",
                Value.str "JETTON"])] [])]) "A" = .ok Option.none ∧
    EmulatedTransactionsInterfaceRepository.get_nft_sale
      (EmulatedTransactionsInterfaceRepository.mk
        [("A", EmulatedBlob.mk
          [(0, [Value.int 100, Value.str "A", Value.str "OWNER",
                Value.str "JETTON"])] [])]) "A" = .ok Option.none := by
  have h := claim_C5
    (EmulatedTransactionsInterfaceRepository.mk
      [("A", EmulatedBlob.mk
        [(0, [Value.int 100, Value.str "A", Value.str "OWNER",
              Value.str "JETTON"])] [])]) "A"
    (EmulatedBlob.mk
      [(0, [Value.int 100, Value.str "A", Value.str "OWNER",
            Value.str "JETTON"])] []) rfl
  exact ⟨h.1 0 [Value.int 100, Value.str "A", Value.str "OWNER",
           Value.str "JETTON"] rfl (Value.int 100) (Value.str "A")
           (Value.str "OWNER") (Value.str "JETTON") rfl rfl rfl rfl,
         h.2.2.2.1 rfl, h.2.2.2.2⟩

/-- Claim C3: write-through round trip. For an address bound to a non-empty
interface dict by `put_interfaces`, each `get_*` after the put returns a
record whose fields equal the field map given to `put_interfaces`, and
`None` when the requested kind is absent from that dict; an address bound
to an empty dict is never written, and a subsequent `get_*` for it (on a
previously-uncached key) returns `None`. -/
theorem claim_C3 (s : RedisStore) (ifs : List (String × InterfaceDict))
    (hnd : (ifs.map Prod.fst).Nodup) (addr : String) (d : InterfaceDict)
    (hmem : (addr, d) ∈ ifs) :
    (d ≠ [] →
      (∀ fm, d.lookup "JettonWallet" = some fm →
        ∀ vb va vo vj, fm.lookup "balance" = some vb →
          fm.lookup "address" = some va → fm.lookup "owner" = some vo →
          fm.lookup "jetton" = some vj →
          RedisInterfaceRepository.get_jetton_wallet
            (RedisInterfaceRepository.put_interfaces s ifs) addr =
          .ok (some { balance := vb, address := va, owner := vo,
                      jetton := vj })) ∧
      (d.lookup "JettonWallet" = Option.none →
        RedisInterfaceRepository.get_jetton_wallet
          (RedisInterfaceRepository.put_interfaces s ifs) addr =
          .ok Option.none) ∧
      (∀ fm, d.lookup "NFTItem" = some fm →
        ∀ va vi vx vc vo vt, fm.lookup "address" = some va →
          fm.lookup "init" = some vi → fm.lookup "index" = some vx →
          fm.lookup "collection_address" = some vc →
          fm.lookup "owner_address" = some vo →
          fm.lookup "content" = some vt →
          RedisInterfaceRepository.get_nft_item
            (RedisInterfaceRepository.put_interfaces s ifs) addr =
          .ok (some { address := va, init := vi, index := vx,
                      collection_address := vc, owner_address := vo,
                      content := vt })) ∧
      (d.lookup "NFTItem" = Option.none →
        RedisInterfaceRepository.get_nft_item
          (RedisInterfaceRepository.put_interfaces s ifs) addr =
          .ok Option.none) ∧
      (∀ fm, d.lookup "NftSale" = some fm →
        ∀ va vi vm vn vo vf, fm.lookup "address" = some va →
          fm.lookup "is_complete" = some vi →
          fm.lookup "marketplace_address" = some vm →
          fm.lookup "nft_address" = some vn →
          fm.lookup "nft_owner_address" = some vo →
          fm.lookup "full_price" = some vf →
          RedisInterfaceRepository.get_nft_sale
            (RedisInterfaceRepository.put_interfaces s ifs) addr =
          .ok (some { address := va, is_complete := vi,
                      marketplace_address := vm, nft_address := vn,
                      nft_owner_address := vo, full_price := vf })) ∧
      (d.lookup "NftSale" = Option.none →
        RedisInterfaceRepository.get_nft_sale
          (RedisInterfaceRepository.put_interfaces s ifs) addr =
          .ok Option.none)) ∧
    (d = [] →
      RedisInterfaceRepository.put_interfaces s ifs (redisKey addr) =
        s (redisKey addr) ∧
      (s (redisKey addr) = Option.none →
        RedisInterfaceRepository.get_jetton_wallet
          (RedisInterfaceRepository.put_interfaces s ifs) addr =
          .ok Option.none ∧
        RedisInterfaceRepository.get_nft_item
          (RedisInterfaceRepository.put_interfaces s ifs) addr =
          .ok Option.none ∧
        RedisInterfaceRepository.get_nft_sale
          (RedisInterfaceRepository.put_interfaces s ifs) addr =
          .ok Option.none)) := by
  constructor
  · intro hne
    have hput := put_interfaces_mem ifs hnd addr d hmem hne s
    refine ⟨?_, ?_, ?_, ?_, ?_, ?_⟩
    · intro fm hfm vb va vo vj hvb hva hvo hvj
      simp [RedisInterfaceRepository.get_jetton_wallet, hput, hfm,
        buildJettonWallet, FieldMap.get, hvb, hva, hvo, hvj, bind, Except.bind, pure, Except.pure]
    · intro hfm
      simp [RedisInterfaceRepository.get_jetton_wallet, hput, hfm]
    · intro fm hfm va vi vx vc vo vt hva hvi hvx hvc hvo hvt
      simp [RedisInterfaceRepository.get_nft_item, hput, hfm,
        buildNFTItem, FieldMap.get, hva, hvi, hvx, hvc, hvo, hvt, bind, Except.bind, pure, Except.pure]
    · intro hfm
      simp [RedisInterfaceRepository.get_nft_item, hput, hfm]
    · intro fm hfm va vi vm vn vo vf hva hvi hvm hvn hvo hvf
      simp [RedisInterfaceRepository.get_nft_sale, hput, hfm,
        buildNftSale, FieldMap.get, hva, hvi, hvm, hvn, hvo, hvf, bind, Except.bind, pure, Except.pure]
    · intro hfm
      simp [RedisInterfaceRepository.get_nft_sale, hput, hfm]
  · intro hd
    subst hd
    have hput := put_interfaces_skip ifs hnd addr hmem s
    refine ⟨hput, ?_⟩
    intro hmiss
    refine ⟨?_, ?_, ?_⟩ <;>
      simp [RedisInterfaceRepository.get_jetton_wallet,
        RedisInterfaceRepository.get_nft_item,
        RedisInterfaceRepository.get_nft_sale, hput, hmiss]

theorem claim_C3_witness :
    RedisInterfaceRepository.get_jetton_wallet
      (RedisInterfaceRepository.put_interfaces RedisStore.empty
        [("A", [("JettonWallet",
          [("balance", Value.float 5), ("address", Value.str "A"),
           ("owner", Value.str "O"), ("jetton", Value.str "J")])]),
         ("B", [])]) "A" =
      .ok (some { balance := Value.float 5, address := Value.str "A",
                  owner := Value.str "O", jetton := Value.str "J" }) ∧
    RedisInterfaceRepository.get_nft_item
      (RedisInterfaceRepository.put_interfaces RedisStore.empty
        [("A", [("JettonWallet",
          [("balance", Value.float 5), ("address", Value.str "A"),
           ("owner", Value.str "O"), ("jetton", Value.str "J")])]),
         ("B", [])]) "A" = .ok Option.none ∧
    RedisInterfaceRepository.get_jetton_wallet
      (RedisInterfaceRepository.put_interfaces RedisStore.empty
        [("A", [("JettonWallet",
          [("balance", Value.float 5), ("address", Value.str "A"),
           ("owner", Value.str "O"), ("jetton", Value.str "J")])]),
         ("B", [])]) "B" = .ok Option.none := by
  have hA := claim_C3 RedisStore.empty
    [("A", [("JettonWallet",
      [("balance", Value.float 5), ("address", Value.str "A"),
       ("owner", Value.str "O"), ("jetton", Value.str "J")])]),
     ("B", [])] (by simp) "A"
    [("JettonWallet",
      [("balance", Value.float 5), ("address", Value.str "A"),
       ("owner", Value.str "O"), ("jetton", Value.str "J")])]
    (List.mem_cons_self _ _)
  have hB := claim_C3 RedisStore.empty
    [("A", [("JettonWallet",
      [("balance", Value.float 5), ("address", Value.str "A"),
       ("owner", Value.str "O"), ("jetton", Value.str "J")])]),
     ("B", [])] (by simp) "B" []
    (by simp)
  have h1 := (hA.1 (by simp)).1
    [("balance", Value.float 5), ("address", Value.str "A"),
     ("owner", Value.str "O"), ("jetton", Value.str "J")] rfl
    (Value.float 5) (Value.str "A") (Value.str "O") (Value.str "J")
    rfl rfl rfl rfl
  have h2 := (hA.1 (by simp)).2.2.2.1 rfl
  have h3 := ((hB.2 rfl).2 rfl).1
  exact ⟨h1, h2, h3⟩

/-- Claim C6: a trace with exactly one transaction of kind `tick_tock` and
zero edges is classified as success with zero actions, for every
classification delegate (the engine — and hence the ambient interface
cache it reads — is never consulted). -/
theorem claim_C6 (trace : Trace) (tx : Transaction)
    (htx : trace.transactions = [tx]) (hdescr : tx.descr = "tick_tock")
    (hedges : trace.edges = []) (delegate : ClassifyDelegate) :
    process_trace delegate trace = (trace.trace_id, true, []) := by
  have hshort : isTickTockShortcut trace = true := by
    simp [isTickTockShortcut, htx, hdescr, hedges]
  simp [process_trace, hshort]

theorem claim_C6_witness :
    process_trace (fun _ => .error "engine must not be consulted")
      (Trace.mk "t0" [Transaction.mk "acct" "tick_tock"] []) =
      ("t0", true, []) :=
  claim_C6 (Trace.mk "t0" [Transaction.mk "acct" "tick_tock"] [])
    (Transaction.mk "acct" "tick_tock") rfl rfl rfl
    (fun _ => .error "engine must not be consulted")

/-- Claim C7: when delegation succeeds (the trace is not the tick_tock
short-circuit and the delegate returns a block tree), the result is success
with exactly one action per block of the breadth-first enumeration of the
tree, excluding the synthetic root block and every `call_contract` block
whose triggering message has no destination, each action tagged with the
owning trace ID. -/
theorem claim_C7 (delegate : ClassifyDelegate) (trace : Trace) (tree : Block)
    (hnt : isTickTockShortcut trace = false)
    (hok : delegate trace = .ok tree)
    (hwf : ∀ b ∈ tree.bfs_iter, b.btype = "call_contract" →
      b.event_nodes ≠ []) :
    process_trace delegate trace =
      (trace.trace_id, true,
        (tree.bfs_iter.filter keepBlock).map
          (fun b => block_to_action b trace.trace_id)) ∧
    ∀ a ∈ (process_trace delegate trace).2.2,
      a.trace_id = trace.trace_id := by
  have hc := collectActions_eq_filter trace.trace_id tree.bfs_iter hwf
  have h1 : process_trace delegate trace =
      (trace.trace_id, true,
        (tree.bfs_iter.filter keepBlock).map
          (fun b => block_to_action b trace.trace_id)) := by
    simp [process_trace, hnt, hok, hc, bind, Except.bind]
  refine ⟨h1, ?_⟩
  intro a ha
  rw [h1] at ha
  simp only [List.mem_map] at ha
  obtain ⟨b, _, hba⟩ := ha
  rw [← hba]
  rfl

theorem claim_C7_witness :
    process_trace
      (fun _ => .ok (Block.node "root" []
        [Block.node "call_contract"
          [EventNode.mk (TraceMessage.mk Option.none)] [],
         Block.node "ton_transfer"
          [EventNode.mk (TraceMessage.mk (some "D"))] []]))
      (Trace.mk "t1" [Transaction.mk "a" "ord"] []) =
      ("t1", true,
        (((Block.node "root" []
          [Block.node "call_contract"
            [EventNode.mk (TraceMessage.mk Option.none)] [],
           Block.node "ton_transfer"
            [EventNode.mk (TraceMessage.mk (some "D"))] []]).bfs_iter).filter
          keepBlock).map (fun b => block_to_action b "t1")) ∧
    ∀ a ∈ (process_trace
      (fun _ => .ok (Block.node "root" []
        [Block.node "call_contract"
          [EventNode.mk (TraceMessage.mk Option.none)] [],
         Block.node "ton_transfer"
          [EventNode.mk (TraceMessage.mk (some "D"))] []]))
      (Trace.mk "t1" [Transaction.mk "a" "ord"] [])).2.2,
      a.trace_id = "t1" :=
  claim_C7
    (fun _ => .ok (Block.node "root" []
      [Block.node "call_contract"
        [EventNode.mk (TraceMessage.mk Option.none)] [],
       Block.node "ton_transfer"
        [EventNode.mk (TraceMessage.mk (some "D"))] []]))
    (Trace.mk "t1" [Transaction.mk "a" "ord"] [])
    (Block.node "root" []
      [Block.node "call_contract"
        [EventNode.mk (TraceMessage.mk Option.none)] [],
       Block.node "ton_transfer"
        [EventNode.mk (TraceMessage.mk (some "D"))] []])
    rfl rfl
    (by
      intro b hb hcc
      simp [Block.bfs_iter, Block.bfsAux, Block.size, Block.sizeList] at hb
      rcases hb with h | h | h <;> subst h <;>
        simp_all [Block.event_nodes, Block.btype])

/-- Claim C2: a fetched trace whose node count is 0 or greater than 500 is
marked `ok` in the committed states of the cycle and is excluded from every
batch dispatched to the workers (so the classification engine never sees it
and it contributes zero actions). -/
theorem claim_C2 (batch : List (String × Nat)) (batch_size : Nat)
    (states : List (String × String)) (tid : String) (nodes : Nat)
    (hmem : (tid, nodes) ∈ batch) (hpath : nodes = 0 ∨ 500 < nodes)
    (hnd : (batch.map Prod.fst).Nodup)
    (s0 : String) (hs : states.lookup tid = some s0) :
    (orchestratorCycle batch batch_size states).1.lookup tid = some "ok" ∧
    (∀ bs, (orchestratorCycle batch batch_size states).2 =
      CycleOutcome.dispatched bs → ∀ b ∈ bs, tid ∉ b) := by
  have hne : batch ≠ [] := by
    intro hc
    rw [hc] at hmem
    simp at hmem
  have hlen : ¬batch.length = 0 := by simp [hne]
  have hfold : batch.foldl (fun _ _ => true) false = true :=
    foldl_const_true batch false hne
  have hfast : (decide (500 < nodes) || decide (nodes = 0)) = true := by
    rcases hpath with h | h <;> simp [h]
  have htid : tid ∈ (batch.filter
      (fun p => decide (500 < p.2) || decide (p.2 = 0))).map
      (fun p => p.1) := by
    apply List.mem_map.mpr
    exact ⟨(tid, nodes), List.mem_filter.mpr ⟨hmem, hfast⟩, rfl⟩
  have hnotid : tid ∉ (batch.filter
      (fun p => !(decide (500 < p.2) || decide (p.2 = 0)))).map
      (fun p => p.1) := by
    intro hc
    obtain ⟨p, hp, hp1⟩ := List.mem_map.mp hc
    obtain ⟨hpb, hpred⟩ := List.mem_filter.mp hp
    have hpe : p = (tid, nodes) :=
      List.inj_on_of_nodup_map hnd hpb hmem (by rw [hp1])
    rw [hpe] at hpred
    rw [hfast] at hpred
    simp at hpred
  constructor
  · simp only [orchestratorCycle, if_neg hlen, hfold, if_pos]
    rw [lookup_updState, if_pos htid, hs]
    rfl
  · intro bs hbs b hb hx
    simp only [orchestratorCycle, if_neg hlen, hfold, if_true] at hbs
    have hbs2 : bs = split_into_batches ((batch.filter
        (fun p => !(decide (500 < p.2) || decide (p.2 = 0)))).map
        (fun p => p.1)) batch_size := by
      injection hbs with h1
      rw [← h1]
    rw [hbs2] at hb
    exact hnotid (mem_of_mem_split_into_batches _ batch_size b hb tid hx)

theorem claim_C2_witness :
    (orchestratorCycle [("t1", 600), ("t2", 3)] 1
        [("t1", "unclassified"), ("t2", "unclassified")]).1.lookup "t1" =
      some "ok" ∧
    (∀ bs, (orchestratorCycle [("t1", 600), ("t2", 3)] 1
        [("t1", "unclassified"), ("t2", "unclassified")]).2 =
      CycleOutcome.dispatched bs → ∀ b ∈ bs, "t1" ∉ b) :=
  claim_C2 [("t1", 600), ("t2", 3)] 1
    [("t1", "unclassified"), ("t2", "unclassified")] "t1" 600
    (List.mem_cons_self _ _) (Or.inr (by decide)) (by decide)
    "unclassified" rfl

/-- Claim C9, divergence witness: the empty-fetch half holds (an empty page
yields the backoff sleep), but on a non-empty page where every trace took
the pathological-size fast path the orchestrator does NOT sleep: because
the loop body sets `has_traces_to_process = True` in both branches, the
cycle takes the dispatch arm with an empty batch list (`dispatched []`)
instead of the claimed backoff sleep (`idleSleep`). -/
theorem claim_C9_divergence :
    orchestratorCycle [] 1000 [("t0", "unclassified")] =
      ([("t0", "unclassified")], CycleOutcome.emptySleep) ∧
    orchestratorCycle [("t1", 600)] 1000 [("t1", "unclassified")] =
      ([("t1", "ok")], CycleOutcome.dispatched []) ∧
    CycleOutcome.dispatched [] ≠ CycleOutcome.idleSleep := by
  refine ⟨rfl, ?_, by simp⟩
  simp [orchestratorCycle, updState, split_into_batches, List.filter]

/-- Claim C1: partial-failure isolation inside one batch commit. If the
delegate raises on trace `k` (and `k` is not the tick_tock short-circuit),
`process_trace` reports `(trace_id, False, [])` for it, the committed batch
state marks it `failed`, and every sibling trace whose classification
succeeded is marked `ok` with all of its actions persisted in the same
commit. -/
theorem claim_C1 (delegate : ClassifyDelegate) (events : List Trace)
    (db : TraceDB) (k : Nat) (hk : k < events.length)
    (hshort : isTickTockShortcut events[k] = false)
    (e : String) (herr : delegate events[k] = .error e)
    (hnd : (events.map Trace.trace_id).Nodup) :
    process_trace delegate events[k] = (events[k].trace_id, false, []) ∧
    (∀ s0, db.states.lookup events[k].trace_id = some s0 →
      (process_trace_batch_async delegate events db).states.lookup
        events[k].trace_id = some "failed") ∧
    (∀ j, (hj : j < events.length) → j ≠ k →
      (process_trace delegate events[j]).2.1 = true →
      (∀ s0, db.states.lookup events[j].trace_id = some s0 →
        (process_trace_batch_async delegate events db).states.lookup
          events[j].trace_id = some "ok") ∧
      (∀ a ∈ (process_trace delegate events[j]).2.2,
        a ∈ (process_trace_batch_async delegate events db).actions)) := by
  have hfail : process_trace delegate events[k] =
      (events[k].trace_id, false, []) := by
    simp [process_trace, hshort, herr, bind, Except.bind]
  have hmemk : process_trace delegate events[k] ∈
      events.map (process_trace delegate) :=
    List.mem_map_of_mem (process_trace delegate) (List.getElem_mem hk)
  have hkfailed : events[k].trace_id ∈
      ((events.map (process_trace delegate)).filter
        (fun r => !r.2.1)).map (fun r => r.1) := by
    apply List.mem_map.mpr
    refine ⟨process_trace delegate events[k],
      List.mem_filter.mpr ⟨hmemk, by simp [hfail]⟩, by rw [hfail]⟩
  refine ⟨hfail, ?_, ?_⟩
  · intro s0 hs0
    simp only [process_trace_batch_async]
    rw [lookup_updState, if_pos hkfailed, lookup_updState]
    by_cases hok : events[k].trace_id ∈
        ((events.map (process_trace delegate)).filter
          (fun r => r.2.1)).map (fun r => r.1)
    · rw [if_pos hok, hs0]
      rfl
    · rw [if_neg hok, hs0]
      rfl
  · intro j hj hjk hsucc
    have hmemj : process_trace delegate events[j] ∈
        events.map (process_trace delegate) :=
      List.mem_map_of_mem (process_trace delegate) (List.getElem_mem hj)
    have hjok : events[j].trace_id ∈
        ((events.map (process_trace delegate)).filter
          (fun r => r.2.1)).map (fun r => r.1) := by
      apply List.mem_map.mpr
      exact ⟨process_trace delegate events[j],
        List.mem_filter.mpr ⟨hmemj, hsucc⟩,
        process_trace_fst delegate events[j]⟩
    have hjnotfailed : events[j].trace_id ∉
        ((events.map (process_trace delegate)).filter
          (fun r => !r.2.1)).map (fun r => r.1) := by
      intro hc
      obtain ⟨r, hr, hr1⟩ := List.mem_map.mp hc
      obtain ⟨hrres, hrfail⟩ := List.mem_filter.mp hr
      obtain ⟨t, ht, htr⟩ := List.mem_map.mp hrres
      have htid : t.trace_id = events[j].trace_id := by
        rw [← hr1, ← htr, process_trace_fst]
      have hte : t = events[j] :=
        List.inj_on_of_nodup_map hnd ht (List.getElem_mem hj) htid
      rw [hte] at htr
      rw [← htr, hsucc] at hrfail
      simp at hrfail
    constructor
    · intro s0 hs0
      simp only [process_trace_batch_async]
      rw [lookup_updState, if_neg hjnotfailed, lookup_updState,
        if_pos hjok, hs0]
      rfl
    · intro a ha
      simp only [process_trace_batch_async]
      apply List.mem_append_right
      apply List.mem_flatMap.mpr
      exact ⟨process_trace delegate events[j],
        List.mem_filter.mpr ⟨hmemj, hsucc⟩, ha⟩

theorem claim_C1_witness :
    process_trace
      (fun t => if t.trace_id = "t1" then .error "boom"
        else .ok (Block.node "ton_transfer"
          [EventNode.mk (TraceMessage.mk (some "D"))] []))
      (Trace.mk "t1" [Transaction.mk "a" "ord"] []) = ("t1", false, []) ∧
    (process_trace_batch_async
      (fun t => if t.trace_id = "t1" then .error "boom"
        else .ok (Block.node "ton_transfer"
          [EventNode.mk (TraceMessage.mk (some "D"))] []))
      [Trace.mk "t1" [Transaction.mk "a" "ord"] [],
       Trace.mk "t2" [Transaction.mk "b" "ord"] []]
      (TraceDB.mk [("t1", "unclassified"), ("t2", "unclassified")]
        [])).states.lookup "t1" = some "failed" ∧
    (process_trace_batch_async
      (fun t => if t.trace_id = "t1" then .error "boom"
        else .ok (Block.node "ton_transfer"
          [EventNode.mk (TraceMessage.mk (some "D"))] []))
      [Trace.mk "t1" [Transaction.mk "a" "ord"] [],
       Trace.mk "t2" [Transaction.mk "b" "ord"] []]
      (TraceDB.mk [("t1", "unclassified"), ("t2", "unclassified")]
        [])).states.lookup "t2" = some "ok" ∧
    block_to_action (Block.node "ton_transfer"
        [EventNode.mk (TraceMessage.mk (some "D"))] []) "t2" ∈
      (process_trace_batch_async
        (fun t => if t.trace_id = "t1" then .error "boom"
          else .ok (Block.node "ton_transfer"
            [EventNode.mk (TraceMessage.mk (some "D"))] []))
        [Trace.mk "t1" [Transaction.mk "a" "ord"] [],
         Trace.mk "t2" [Transaction.mk "b" "ord"] []]
        (TraceDB.mk [("t1", "unclassified"), ("t2", "unclassified")]
          [])).actions := by
  have h := claim_C1
    (fun t => if t.trace_id = "t1" then .error "boom"
      else .ok (Block.node "ton_transfer"
        [EventNode.mk (TraceMessage.mk (some "D"))] []))
    [Trace.mk "t1" [Transaction.mk "a" "ord"] [],
     Trace.mk "t2" [Transaction.mk "b" "ord"] []]
    (TraceDB.mk [("t1", "unclassified"), ("t2", "unclassified")] [])
    0 (by decide) (by decide) "boom" rfl (by decide)
  have hsucc2 := h.2.2 1 (by decide) (by decide) rfl
  refine ⟨h.1, h.2.1 "unclassified" rfl, hsucc2.1 "unclassified" rfl, ?_⟩
  apply hsucc2.2
  show block_to_action (Block.node "ton_transfer"
    [EventNode.mk (TraceMessage.mk (some "D"))] []) "t2" ∈
    [block_to_action (Block.node "ton_transfer"
      [EventNode.mk (TraceMessage.mk (some "D"))] []) "t2"]
  exact List.mem_cons_self _ _

/-- Claim C10: `gather_interfaces` keys its result by every requested
account — an account with no interface record maps to the empty dict — and
the numeric columns `balance`, `index` and `full_price` are stored through
the `float(...)` coercion, so the field maps carry the float representation
rather than the store's original numeric one. -/
theorem claim_C10 (accounts : List String) (db : RelationalStore) :
    (∀ a ∈ accounts,
      ∃ d, (gather_interfaces accounts db).lookup a = some d) ∧
    (∀ a ∈ accounts,
      (∀ r ∈ db.jetton_wallets, r.address ≠ a) →
      (∀ r ∈ db.nft_items, r.address ≠ a) →
      (∀ r ∈ db.nft_sales, r.address ≠ a) →
      (gather_interfaces accounts db).lookup a = some []) ∧
    ((db.jetton_wallets.map JettonWalletRow.address).Nodup →
      ∀ w ∈ db.jetton_wallets, w.address ∈ accounts →
        getKind (gather_interfaces accounts db) w.address "JettonWallet" =
          some (jwFields w) ∧
        (jwFields w).lookup "balance" = some (Value.float w.balance)) ∧
    ((db.nft_items.map NFTItemRow.address).Nodup →
      ∀ w ∈ db.nft_items, w.address ∈ accounts →
        getKind (gather_interfaces accounts db) w.address "NFTItem" =
          some (niFields w) ∧
        (niFields w).lookup "index" = some (Value.float w.index)) ∧
    ((db.nft_sales.map NftSaleRow.address).Nodup →
      ∀ w ∈ db.nft_sales, w.address ∈ accounts →
        getKind (gather_interfaces accounts db) w.address "NftSale" =
          some (nsFields w) ∧
        (nsFields w).lookup "full_price" =
          some (Value.float w.full_price)) := by
  have hunfold : gather_interfaces accounts db =
      foldKind "NftSale"
        ((db.nft_sales.filter
          (fun w => accounts.contains w.address)).map
            (fun w => (w.address, nsFields w)))
        (foldKind "NFTItem"
          ((db.nft_items.filter
            (fun w => accounts.contains w.address)).map
              (fun w => (w.address, niFields w)))
          (foldKind "JettonWallet"
            ((db.jetton_wallets.filter
              (fun w => accounts.contains w.address)).map
                (fun w => (w.address, jwFields w)))
            (accounts.map (fun a => (a, []))))) := by
    simp [gather_interfaces, _gather_data_from_db]
  refine ⟨?_, ?_, ?_, ?_, ?_⟩
  · intro a ha
    rw [hunfold]
    apply Option.isSome_iff_exists.mp
    apply lookup_foldKind_isSome
    apply lookup_foldKind_isSome
    apply lookup_foldKind_isSome
    rw [lookup_seed_mem accounts a ha]
    rfl
  · intro a ha hjw hni hns
    rw [hunfold]
    have hrows : ∀ {α : Type} (key : α → String) (f : α → FieldMap)
        (l : List α), (∀ r ∈ l, key r ≠ a) →
        ∀ q ∈ (l.filter (fun w => accounts.contains (key w))).map
          (fun w => (key w, f w)), q.1 ≠ a := by
      intro α key f l hl q hq
      obtain ⟨w, hw, hwq⟩ := List.mem_map.mp hq
      rw [← hwq]
      exact hl w (List.mem_of_mem_filter hw)
    rw [lookup_foldKind_not_mem _ _ _ _
        (hrows NftSaleRow.address nsFields db.nft_sales hns),
      lookup_foldKind_not_mem _ _ _ _
        (hrows NFTItemRow.address niFields db.nft_items hni),
      lookup_foldKind_not_mem _ _ _ _
        (hrows JettonWalletRow.address jwFields db.jetton_wallets hjw),
      lookup_seed_mem accounts a ha]
  · intro hnd w hw hacc
    refine ⟨?_, by simp [jwFields, List.lookup]⟩
    rw [hunfold]
    rw [getKind_foldKind_ne "NftSale" "JettonWallet" (by simp),
      getKind_foldKind_ne "NFTItem" "JettonWallet" (by simp)]
    apply getKind_foldKind_self
    · have hsub : ((db.jetton_wallets.filter
          (fun w => accounts.contains w.address)).map
            (fun w => (w.address, jwFields w))).map Prod.fst =
          (db.jetton_wallets.filter
            (fun w => accounts.contains w.address)).map
              JettonWalletRow.address := by
        simp [List.map_map]
      rw [hsub]
      exact List.Nodup.sublist
        (List.Sublist.map JettonWalletRow.address
          (List.filter_sublist db.jetton_wallets)) hnd
    · apply List.mem_map.mpr
      refine ⟨w, List.mem_filter.mpr ⟨hw, ?_⟩, rfl⟩
      simp [hacc]
  · intro hnd w hw hacc
    refine ⟨?_, by simp [niFields, List.lookup]⟩
    rw [hunfold]
    rw [getKind_foldKind_ne "NftSale" "NFTItem" (by simp)]
    apply getKind_foldKind_self
    · have hsub : ((db.nft_items.filter
          (fun w => accounts.contains w.address)).map
            (fun w => (w.address, niFields w))).map Prod.fst =
          (db.nft_items.filter
            (fun w => accounts.contains w.address)).map
              NFTItemRow.address := by
        simp [List.map_map]
      rw [hsub]
      exact List.Nodup.sublist
        (List.Sublist.map NFTItemRow.address
          (List.filter_sublist db.nft_items)) hnd
    · apply List.mem_map.mpr
      refine ⟨w, List.mem_filter.mpr ⟨hw, ?_⟩, rfl⟩
      simp [hacc]
  · intro hnd w hw hacc
    refine ⟨?_, by simp [nsFields, List.lookup]⟩
    rw [hunfold]
    apply getKind_foldKind_self
    · have hsub : ((db.nft_sales.filter
          (fun w => accounts.contains w.address)).map
            (fun w => (w.address, nsFields w))).map Prod.fst =
          (db.nft_sales.filter
            (fun w => accounts.contains w.address)).map
              NftSaleRow.address := by
        simp [List.map_map]
      rw [hsub]
      exact List.Nodup.sublist
        (List.Sublist.map NftSaleRow.address
          (List.filter_sublist db.nft_sales)) hnd
    · apply List.mem_map.mpr
      refine ⟨w, List.mem_filter.mpr ⟨hw, ?_⟩, rfl⟩
      simp [hacc]

theorem claim_C10_witness :
    (∃ d, (gather_interfaces ["A", "B"]
      (RelationalStore.mk
        [{ address := "A", balance := 7, owner := "O", jetton := "J" }]
        [] [])).lookup "A" = some d) ∧
    (gather_interfaces ["A", "B"]
      (RelationalStore.mk
        [{ address := "A", balance := 7, owner := "O", jetton := "J" }]
        [] [])).lookup "B" = some [] ∧
    getKind (gather_interfaces ["A", "B"]
      (RelationalStore.mk
        [{ address := "A", balance := 7, owner := "O", jetton := "J" }]
        [] [])) "A" "JettonWallet" =
      some (jwFields
        { address := "A", balance := 7, owner := "O", jetton := "J" }) ∧
    (jwFields
      { address := "A", balance := 7, owner := "O", jetton := "J" }).lookup
      "balance" = some (Value.float 7) := by
  have h := claim_C10 ["A", "B"]
    (RelationalStore.mk
      [{ address := "A", balance := 7, owner := "O", jetton := "J" }]
      [] [])
  have h3 := h.2.2.1 (by decide)
    { address := "A", balance := 7, owner := "O", jetton := "J" }
    (List.mem_cons_self _ _) (by decide)
  exact ⟨h.1 "A" (by decide),
    h.2.1 "B" (by decide) (by decide) (by decide) (by decide),
    h3.1, h3.2⟩
